import Mathlib

/-!
Shallow embedding of `astro_image.py` (class `AstroImage`), a thin facade over
astropy / photutils.  Pixel values are modelled as `Option ℚ` (`none` = IEEE
NaN), n-dimensional numpy arrays as a nested inductive, Python object identity
for FITS headers as references into an explicit header store, and the
filesystem for FITS input and output as an association list.  The external
library routines the class delegates to (WCS transforms, `Cutout2D`,
`aperture_photometry`, `sigma_clipped_stats`) are modelled from their
documented behaviour, either as explicit small definitions (`Cutout2D`
geometry) or as oracle function parameters (photometry sums, clipped
statistics, world-to-pixel transforms).
-/

set_option linter.unusedVariables false

namespace AstroLib

/-- A pixel value: `none` models an IEEE NaN entry, `some q` a finite value. -/
abbrev Pixel := Option ℚ

/-- The NaN marker used as missing-value fill. -/
def Pixel.nanP : Pixel := none

/-- IEEE `==` comparison on pixel values: NaN compares unequal to everything,
including itself, so `none` never matches. -/
def pixEq : Pixel → Pixel → Bool
  | some a, some b => a == b
  | _, _ => false

/-- A numpy ndarray, as a nested inductive: a scalar or a list of subarrays. -/
inductive NDArray where
  | val (p : Pixel)
  | arr (elems : List NDArray)

/-- Errors raised by the Python runtime or by the wrapped astropy routines. -/
inductive PyError where
  | indexErr
  | fileMissing
  | unboundLocal
  | noOverlap
  | partOverlap
deriving DecidableEq, Repr

/-- Python `a[0]` on an array: the first subarray, or an `IndexError`. -/
def NDArray.index0 : NDArray → Except PyError NDArray
  | .arr (x :: _) => .ok x
  | _ => .error .indexErr

mutual

/-- Whether an `NDArray` has exactly the given (numpy) shape. -/
def matchesShape : NDArray → List Nat → Bool
  | .val _, [] => true
  | .val _, _ :: _ => false
  | .arr _, [] => false
  | .arr l, n :: rest => l.length == n && matchesShapeL l rest

/-- All arrays in the list have the given shape. -/
def matchesShapeL : List NDArray → List Nat → Bool
  | [], _ => true
  | a :: as, rest => matchesShape a rest && matchesShapeL as rest

end

mutual

/-- Elementwise map over an ndarray (numpy vectorised assignment). -/
def NDArray.mapPx (f : Pixel → Pixel) : NDArray → NDArray
  | .val p => .val (f p)
  | .arr l => .arr (NDArray.mapPxL f l)

/-- Elementwise map over a list of ndarrays. -/
def NDArray.mapPxL (f : Pixel → Pixel) : List NDArray → List NDArray
  | [] => []
  | a :: as => NDArray.mapPx f a :: NDArray.mapPxL f as

end

mutual

/-- Flatten an ndarray to the list of its pixels (row-major). -/
def NDArray.flat : NDArray → List Pixel
  | .val p => [p]
  | .arr l => NDArray.flatL l

/-- Flatten a list of ndarrays. -/
def NDArray.flatL : List NDArray → List Pixel
  | [] => []
  | a :: as => NDArray.flat a ++ NDArray.flatL as

end

/-- Model of an astropy `WCS` transform object: the array shape it describes
(`wcs.array_shape`, array axis order), the axis types, the reference pixel and
the projection-plane pixel scales (both in WCS axis order, scales in
degrees/pixel as returned by `proj_plane_pixel_scales`). -/
structure WCSModel where
  shape : List Nat
  ctype : List String
  crpix : List ℚ
  pixelScales : List ℚ
deriving DecidableEq, Repr, Inhabited

/-- `wcs.wcs.naxis`, kept consistent with the array shape the WCS describes. -/
def WCSModel.naxis (w : WCSModel) : Nat := w.shape.length

/-- `wcs.dropaxis(naxis-1)`: dropping the highest-index WCS axis removes the
leading array axis and the last entry of each WCS-axis-ordered list. -/
def WCSModel.dropTop (w : WCSModel) : WCSModel :=
  { shape := w.shape.tail
    ctype := w.ctype.dropLast
    crpix := w.crpix.dropLast
    pixelScales := w.pixelScales.dropLast }

/-- A FITS header: the WCS keywords it carries plus the remaining cards.
`hdr.update(wcs.to_header())` replaces the WCS part. -/
structure Header where
  wcsPart : WCSModel
  rest : List (String × ℚ)
deriving DecidableEq, Repr, Inhabited

/-- Model of `hdr.update(w.to_header())`. -/
def Header.updateWCS (h : Header) (w : WCSModel) : Header :=
  { h with wcsPart := w }

/-- The store of live header objects; a header reference is an index into it.
Two images holding the same reference share one mutable header object. -/
abbrev Heap := List Header

/-- Dereference a header. -/
def heapGet (h : Heap) (r : Nat) : Header := h.getD r default

/-- In-place mutation of the header object at reference `r`. -/
def heapSet (h : Heap) (r : Nat) (v : Header) : Heap := h.set r v

/-- A FITS file: its list of HDU extensions, each with data and header. -/
abbrev FitsFile := List (NDArray × Header)

/-- The filesystem, mapping paths to FITS files. -/
abbrev FS := List (String × FitsFile)

/-- Look a path up in the filesystem. -/
def lookupFS : FS → String → Option FitsFile
  | [], _ => none
  | (u, f) :: rest, url => if u == url then some f else lookupFS rest url

/-- Write a file at a path, overwriting any existing file. -/
def setFS : FS → String → FitsFile → FS
  | [], url, f => [(url, f)]
  | (u, g) :: rest, url, f =>
      if u == url then (url, f) :: rest else (u, g) :: setFS rest url f

/-- The `AstroImage` record: url and extension index, pixel data (`self.hdu`),
a reference to its header object (`self.hdr`), its transform (`self.wcs`) and
the derived pixel scale in arcsec/pixel (`self.pixel_scale`). -/
structure AstroImage where
  url : String
  ext : Nat
  hdu : NDArray
  hdrRef : Nat
  wcs : WCSModel
  pixel_scale : List ℚ

/-- Fuel-indexed shape-level form of the singleton-axis reduction loop of
`AstroImage.__init__`: while the transform does not report exactly two axes
and the leading array extent is 1, drop the highest-index axis.  Each
iteration of the source `while` loop removes one axis and requires a
nonempty shape, so fuel equal to the axis count makes this exactly the
source loop. -/
def dropAxesFuel : Nat → WCSModel → WCSModel
  | 0, w => w
  | n + 1, w =>
    if w.naxis ≠ 2 ∧ w.shape.headD 0 = 1 then dropAxesFuel n w.dropTop else w

/-- Shape-level fixpoint of the singleton-axis reduction loop. -/
def dropAxes (w : WCSModel) : WCSModel := dropAxesFuel w.shape.length w

/-- Fuel-indexed full reduction loop of `AstroImage.__init__` (lines 63-66):
in lockstep it takes `hdu = hdu[0]`, drops the highest WCS axis, and
refreshes the header from the reduced transform
(`hdr.update(wcs.to_header())`).  A failing array index propagates as the
Python `IndexError` would.  As for `dropAxesFuel`, fuel equal to the axis
count makes this exactly the source `while` loop. -/
def dropLoopFuel : Nat → NDArray → WCSModel → Header →
    Except PyError (NDArray × WCSModel × Header)
  | 0, hdu, w, hdr => .ok (hdu, w, hdr)
  | n + 1, hdu, w, hdr =>
    if w.naxis ≠ 2 ∧ w.shape.headD 0 = 1 then
      match hdu.index0 with
      | .error e => .error e
      | .ok hdu0 => dropLoopFuel n hdu0 w.dropTop (hdr.updateWCS w.dropTop)
    else
      .ok (hdu, w, hdr)

/-- The reduction loop of `AstroImage.__init__`, with the exact fuel. -/
def dropLoopFull (hdu : NDArray) (w : WCSModel) (hdr : Header) :
    Except PyError (NDArray × WCSModel × Header) :=
  dropLoopFuel w.shape.length hdu w hdr

/-- `AstroImage.__init__` with `mode='file'`: `open_fits_image` reads the HDU
data and header at the extension index and builds the WCS from the header;
then the singleton-axis reduction loop runs; then the pixel scale is computed
as `proj_plane_pixel_scales(wcs) * 3600`.  The post-loop `if/else` at lines
67-72 only prints on success, and on failure merely CONSTRUCTS an `Exception`
without raising it, so it has no effect on the result and no error is
produced there.  The freshly read header becomes a new live header object. -/
def initFile (fs : FS) (heap : Heap) (url : String) (ext : Nat) :
    Except PyError (AstroImage × Heap) :=
  match lookupFS fs url with
  | none => .error .fileMissing
  | some file =>
    match file[ext]? with
    | none => .error .indexErr
    | some (data, hdr0) =>
      match dropLoopFull data hdr0.wcsPart hdr0 with
      | .error e => .error e
      | .ok (hdu1, w1, hdr1) =>
        .ok ({ url := url, ext := ext, hdu := hdu1, hdrRef := heap.length,
               wcs := w1,
               pixel_scale := w1.pixelScales.map (fun s => s * 3600) },
             heap ++ [hdr1])

/-- `AstroImage.__init__` with `mode='data'`: wraps already-computed pieces. -/
def initData (hdu : NDArray) (hdrRef : Nat) (w : WCSModel) (ps : List ℚ) :
    AstroImage :=
  { url := "", ext := 0, hdu := hdu, hdrRef := hdrRef, wcs := w,
    pixel_scale := ps }

/-- `AstroImage.save`: writes `fits.PrimaryHDU(self.hdu, header=self.hdr)` as a
single-extension FITS file at the target path with `overwrite=True`. -/
def save (fs : FS) (heap : Heap) (img : AstroImage) (url : String) : FS :=
  setFS fs url [(img.hdu, heapGet heap img.hdrRef)]

/-- numpy `np.round` (round half to even) on an exact rational. -/
def npRound (q : ℚ) : ℤ :=
  let f := ⌊q⌋
  let frac := q - f
  if frac < 1/2 then f
  else if 1/2 < frac then f + 1
  else if f % 2 = 0 then f else f + 1

/-- Elementwise `np.array(box) / np.array(pixel_scale)` for a length-2 box. -/
def elemDiv (box : ℚ × ℚ) (ps : List ℚ) : ℚ × ℚ :=
  (box.1 / ps.getD 0 0, box.2 / ps.getD 1 0)

/-- Top-level subarrays of an ndarray. -/
def NDArray.topList : NDArray → List NDArray
  | .val _ => []
  | .arr l => l

/-- Number of rows of a 2D ndarray. -/
def nrows (d : NDArray) : Nat := d.topList.length

/-- Number of columns of a 2D ndarray (length of the first row). -/
def ncols (d : NDArray) : Nat := ((d.topList).getD 0 (.arr [])).topList.length

/-- Read pixel `(j, i)` of a 2D ndarray; out-of-bounds reads give the NaN
fill value used by `Cutout2D(mode='partial', fill_value=nan)`. -/
def getPx (d : NDArray) (j i : ℤ) : Pixel :=
  match d with
  | .val _ => Pixel.nanP
  | .arr rows =>
    if 0 ≤ j ∧ j < (rows.length : ℤ) then
      match rows.getD j.toNat (.arr []) with
      | .val _ => Pixel.nanP
      | .arr cells =>
        if 0 ≤ i ∧ i < (cells.length : ℤ) then
          match cells.getD i.toNat (.arr []) with
          | .val p => p
          | .arr _ => Pixel.nanP
        else Pixel.nanP
    else Pixel.nanP

/-- Cutout slice bounds, as in astropy `overlap_slices`: along each axis the
cutout covers `[ceil(pos - n/2), ceil(pos + n/2))`.  Returns
`((miny, maxy), (minx, maxx))` for integer cutout shape `(ny, nx)` and centre
`(x, y)`. -/
def cutBounds (pos : ℚ × ℚ) (ny nx : ℤ) : (ℤ × ℤ) × (ℤ × ℤ) :=
  ((⌈pos.2 - (ny : ℚ) / 2⌉, ⌈pos.2 + (ny : ℚ) / 2⌉),
   (⌈pos.1 - (nx : ℚ) / 2⌉, ⌈pos.1 + (nx : ℚ) / 2⌉))

/-- The requested cutout box overlaps the data array in at least one pixel. -/
def overlapNonempty (d : NDArray) (pos size : ℚ × ℚ) : Bool :=
  let ny := npRound size.1
  let nx := npRound size.2
  let b := cutBounds pos ny nx
  decide (0 < b.1.2 ∧ b.1.1 < (nrows d : ℤ) ∧ 0 < b.2.2 ∧ b.2.1 < (ncols d : ℤ))

/-- The requested cutout box lies entirely inside the data array. -/
def fullyInside (d : NDArray) (pos size : ℚ × ℚ) : Bool :=
  let ny := npRound size.1
  let nx := npRound size.2
  let b := cutBounds pos ny nx
  decide (0 ≤ b.1.1 ∧ b.1.2 ≤ (nrows d : ℤ) ∧ 0 ≤ b.2.1 ∧ b.2.2 ≤ (ncols d : ℤ))

/-- The extracted rectangular sub-array of shape `(ny, nx)` whose `(j, i)`
entry is the source pixel at `(miny + j, minx + i)`, NaN-filled outside. -/
def cropAt (d : NDArray) (miny minx ny nx : ℤ) : NDArray :=
  .arr ((List.range ny.toNat).map fun j =>
    .arr ((List.range nx.toNat).map fun i =>
      .val (getPx d (miny + (j : ℤ)) (minx + (i : ℤ)))))

/-- `Cutout2D` updates the WCS of the crop: the reference pixel shifts by the
crop origin and the described array shape becomes the cutout shape. -/
def adjustWCS (w : WCSModel) (miny minx : ℤ) (ny nx : ℤ) : WCSModel :=
  { w with shape := [ny.toNat, nx.toNat]
           crpix := [w.crpix.getD 0 0 - (minx : ℚ), w.crpix.getD 1 0 - (miny : ℚ)] }

/-- The overlap mode passed to `Cutout2D`. -/
inductive CutMode where
  | part
  | strict
deriving DecidableEq, Repr

/-- Result of `Cutout2D`: the cropped data and its adjusted WCS. -/
structure Cut2DRes where
  data : NDArray
  wcs : WCSModel

/-- Model of astropy `Cutout2D(data, (x, y), size, wcs=wcs, mode=mode)` with
NaN fill: the size `(ny, nx)` is rounded to whole pixels, slice bounds follow
`overlap_slices`, no overlap at all raises `NoOverlapError` in every mode, and
a merely partial overlap raises `PartialOverlapError` only in strict mode;
in `mode='partial'` out-of-bounds pixels are NaN-filled instead. -/
def cutout2D (d : NDArray) (pos size : ℚ × ℚ) (w : WCSModel) (mode : CutMode) :
    Except PyError Cut2DRes :=
  let ny := npRound size.1
  let nx := npRound size.2
  let b := cutBounds pos ny nx
  if overlapNonempty d pos size then
    if mode = .strict ∧ fullyInside d pos size = false then
      .error .partOverlap
    else
      .ok ⟨cropAt d b.1.1 b.2.1 ny nx, adjustWCS w b.1.1 b.2.1 ny nx⟩
  else
    .error .noOverlap

/-- `AstroImage.cutout`: converts the sky coordinate to pixel space with
`wcs.wcs_world2pix` (modelled by the oracle `w2p` applied to the stored
transform), converts the box from arcsec to pixels by elementwise division by
the stored `pixel_scale`, calls `Cutout2D(..., mode='partial')`, mutates the
parent header object in place with the cropped transform's serialization, and
wraps the result via the `mode='data'` constructor, sharing the parent's
header reference. -/
def cutout (heap : Heap) (img : AstroImage) (w2p : WCSModel → ℚ × ℚ → ℚ × ℚ)
    (coord : ℚ × ℚ) (box : ℚ × ℚ) : Except PyError (AstroImage × Heap) :=
  let xy := w2p img.wcs coord
  let boxPix := elemDiv box img.pixel_scale
  match cutout2D img.hdu xy boxPix img.wcs .part with
  | .error e => .error e
  | .ok res =>
    let hdr1 := (heapGet heap img.hdrRef).updateWCS res.wcs
    .ok (initData res.data img.hdrRef res.wcs img.pixel_scale,
         heapSet heap img.hdrRef hdr1)

/-- `AstroImage.cutout_pixel`: identical to `cutout` except that the box is
already in pixels; the coordinate is still pushed through
`wcs.wcs_world2pix`. -/
def cutoutPixel (heap : Heap) (img : AstroImage)
    (w2p : WCSModel → ℚ × ℚ → ℚ × ℚ) (coord : ℚ × ℚ) (box : ℚ × ℚ) :
    Except PyError (AstroImage × Heap) :=
  let xy := w2p img.wcs coord
  let boxPix := box
  match cutout2D img.hdu xy boxPix img.wcs .part with
  | .error e => .error e
  | .ok res =>
    let hdr1 := (heapGet heap img.hdrRef).updateWCS res.wcs
    .ok (initData res.data img.hdrRef res.wcs img.pixel_scale,
         heapSet heap img.hdrRef hdr1)

/-- Sorting order used by `np.unique`: finite values ascending, NaN last. -/
def pixLe : Pixel → Pixel → Bool
  | some a, some b => a ≤ b
  | some _, none => true
  | none, some _ => false
  | none, none => true

/-- Insert into a sorted list of pixels. -/
def insertPix (a : Pixel) : List Pixel → List Pixel
  | [] => [a]
  | b :: bs => if pixLe a b then a :: b :: bs else b :: insertPix a bs

/-- Insertion sort by `pixLe`. -/
def sortPix : List Pixel → List Pixel
  | [] => []
  | a :: as => insertPix a (sortPix as)

/-- `np.unique(hdu)`: the sorted distinct pixel values; all NaNs are collapsed
into a single entry. -/
def uniqueVals (px : List Pixel) : List Pixel := (sortPix px).dedup

/-- Occurrence count of a distinct value (NaNs are grouped, so the count of
the NaN entry is the total number of NaN pixels). -/
def countPx (px : List Pixel) (v : Pixel) : Nat := px.count v

/-- `np.mean` of the count distribution, as an exact rational. -/
def meanQ (l : List Nat) : ℚ := (l.map fun c => (c : ℚ)).sum / l.length

/-- `np.std(l) ^ 2`: the population variance of the count distribution. -/
def varQ (l : List Nat) : ℚ :=
  (l.map fun c => ((c : ℚ) - meanQ l) ^ 2).sum / l.length

/-- The test `counts > critical_counts` of `mask_blank`, where
`critical_counts = np.mean(counts) + 5 * np.std(counts) + threshold`.
Stated in decidable squared form; `exceedsCritical_iff` proves it equal to the
literal `mean + 5 * sqrt(variance) + threshold` comparison over ℝ. -/
def exceedsCritical (counts : List Nat) (threshold : ℚ) (c : Nat) : Bool :=
  let d : ℚ := (c : ℚ) - meanQ counts - threshold
  decide (0 < d ∧ 25 * varQ counts < d ^ 2)

/-- One pass `self.hdu[self.hdu == m] = np.nan` of the masking loop. -/
def maskOne (m : Pixel) (p : Pixel) : Pixel :=
  if pixEq p m then Pixel.nanP else p

/-- Simultaneous form of the masking loop: a pixel becomes NaN exactly when it
compares `==`-equal to one of the flagged values. -/
def anyMask (ms : List Pixel) (p : Pixel) : Pixel :=
  if ms.any fun m => pixEq p m then Pixel.nanP else p

/-- `AstroImage.mask_blank`: histogram the distinct pixel values, flag the
values whose count exceeds `mean + 5*std + threshold`, replace each flagged
value's occurrences by NaN in the pixel array (one vectorised assignment per
flagged value), and return `self`. -/
def maskBlank (img : AstroImage) (threshold : ℚ) : AstroImage :=
  let px := img.hdu.flat
  let values := uniqueVals px
  let counts := values.map (countPx px)
  let modeValues := values.filter fun v =>
    exceedsCritical counts threshold (countPx px v)
  { img with
    hdu := modeValues.foldl (fun h m => h.mapPx (maskOne m)) img.hdu }

/-- An astropy `SkyCoord`: right ascension, declination and frame name. -/
structure SkyPos where
  ra : ℚ
  dec : ℚ
  frame : String
deriving DecidableEq, Repr

/-- A photutils `SkyCircularAperture`: a sky position and radius in arcsec. -/
structure SkyAperture where
  pos : SkyPos
  r : ℚ
deriving DecidableEq, Repr

/-- The finite part of a numpy float result: `none` models a NaN or infinite
value (`np.log10` of a non-positive float is NaN or `-inf`). -/
noncomputable def npLog10 (x : ℝ) : Option ℝ :=
  if 0 < x then some (Real.logb 10 x) else none

/-- `mag = -2.5 * np.log10(counts) + zeropoint`; undefined (NaN/inf) when the
summed flux is not positive. -/
noncomputable def npMag (flux zeropoint : ℝ) : Option ℝ :=
  (npLog10 flux).map fun l => -2.5 * l + zeropoint

/-- `AstroImage.photometry` (non-plotting path): resolve the aperture centre
from the mode string (`pixel_to_world` through the oracle `p2w` for
`mode='pixel'`, an FK5 `SkyCoord` in degrees for `mode='sky'`, and no
assignment at all otherwise, which surfaces as Python's
`UnboundLocalError` when `positions` is first used), build the circular sky
aperture of radius `r` arcsec, sum the flux with the external
`aperture_photometry` routine (oracle `apsum`), and convert to a magnitude. -/
noncomputable def photometry (p2w : WCSModel → ℚ × ℚ → SkyPos)
    (apsum : NDArray → SkyAperture → WCSModel → ℝ) (img : AstroImage)
    (coord : ℚ × ℚ) (r : ℚ) (mode : String) (zeropoint : ℝ) :
    Except PyError (Option ℝ × SkyAperture) :=
  let positions : Option SkyPos :=
    if mode = "pixel" then some (p2w img.wcs coord)
    else if mode = "sky" then some ⟨coord.1, coord.2, "fk5"⟩
    else none
  match positions with
  | none => .error .unboundLocal
  | some pos =>
    let aperture : SkyAperture := ⟨pos, r⟩
    let counts := apsum img.hdu aperture img.wcs
    .ok (npMag counts zeropoint, aperture)

/-- `AstroImage.sigma_clipped_stats`: pure delegation to
`astropy.stats.sigma_clipped_stats` (oracle `scs`), returning
`(mean, median, stddev)`. -/
def sigmaClippedStats (scs : NDArray → ℚ → Nat → ℝ × ℝ × ℝ)
    (img : AstroImage) (sigma : ℚ) (maxiters : Nat) : ℝ × ℝ × ℝ :=
  scs img.hdu sigma maxiters

/-- `AstroImage.mag_err`: the clipped standard deviation (clip defaults
`sigma=2`, `maxiters=5`), `flux_err = stddev * sqrt(area)`, and
`mag_err = 2.5/ln(10) * flux_err / 10**((mag - zeropoint)/(-2.5))`. -/
noncomputable def magErr (scs : NDArray → ℚ → Nat → ℝ × ℝ × ℝ)
    (img : AstroImage) (mag zeropoint area : ℝ) : ℝ :=
  let mms := sigmaClippedStats scs img 2 5
  let fluxErr := mms.2.2 * Real.sqrt area
  2.5 / Real.log 10 * fluxErr / (10 : ℝ) ^ ((mag - zeropoint) / (-2.5))

/-! Concrete fixtures used by the witness theorems. -/

/-- A two-axis WCS fixture for a 1x1 image, 1 arcsec/pixel. -/
def wcsW : WCSModel :=
  { shape := [1, 1], ctype := ["RA---TAN", "DEC--TAN"], crpix := [0, 0],
    pixelScales := [1/3600, 1/3600] }

/-- Header fixture carrying `wcsW`. -/
def hdrW : Header := { wcsPart := wcsW, rest := [("EXPTIME", 1)] }

/-- A 1x1 data array. -/
def arrW : NDArray := .arr [.arr [.val (some 1)]]

/-- An image handle fixture wrapping the 1x1 array, header object 0. -/
def imgW : AstroImage :=
  { url := "f.fits", ext := 0, hdu := arrW, hdrRef := 0, wcs := wcsW,
    pixel_scale := [1, 1] }

/-- A header store holding the single live header object. -/
def heapW : Heap := [hdrW]

/-- Claim C9: `cutout_pixel` pushes its coordinate through the same
world-to-pixel transform as `cutout` — it treats the coordinate as a sky
position, not a pixel position — and the two methods differ only in the box
scaling, so `cutout coord box` returns exactly what `cutout_pixel coord
(box / pixel_scale)` returns (same cropped array, same transform, same header
effect). -/
theorem cutout_eq_cutoutPixel_scaled (heap : Heap) (img : AstroImage)
    (w2p : WCSModel → ℚ × ℚ → ℚ × ℚ) (coord box : ℚ × ℚ) :
    cutout heap img w2p coord box =
      cutoutPixel heap img w2p coord (elemDiv box img.pixel_scale) := rfl

/-- Claim C7: `mag_err` returns exactly
`(2.5/ln 10) * (stddev * sqrt area) / flux` with
`flux = 10 ** ((mag - zeropoint) / (-2.5))`, where `stddev` is the
sigma-clipped standard deviation of the pixel array (clip defaults
`sigma=2`, `maxiters=5`). -/
theorem magErr_formula (scs : NDArray → ℚ → Nat → ℝ × ℝ × ℝ)
    (img : AstroImage) (mag zp area : ℝ) :
    magErr scs img mag zp area =
      2.5 / Real.log 10 * ((scs img.hdu 2 5).2.2 * Real.sqrt area) /
        (10 : ℝ) ^ ((mag - zp) / (-2.5)) := rfl

/-- Claim C10: for any mode string other than `"pixel"` and `"sky"`,
`photometry` fails with Python's unbound-local error when the aperture is
built (the `positions` variable was never assigned), so no photometry runs
and no magnitude is returned. -/
theorem photometry_bad_mode (p2w : WCSModel → ℚ × ℚ → SkyPos)
    (apsum : NDArray → SkyAperture → WCSModel → ℝ) (img : AstroImage)
    (coord : ℚ × ℚ) (r : ℚ) (mode : String) (zp : ℝ)
    (h1 : mode ≠ "pixel") (h2 : mode ≠ "sky") :
    photometry p2w apsum img coord r mode zp = .error .unboundLocal := by
  unfold photometry
  rw [if_neg h1, if_neg h2]

/-- Witness for C10 at the concrete mode string `"bad"`. -/
theorem photometry_bad_mode_witness :
    photometry (fun _ c => ⟨c.1, c.2, "icrs"⟩) (fun _ _ _ => 1) imgW (3, 4) 1
      "bad" 0 = .error .unboundLocal :=
  photometry_bad_mode _ _ _ _ _ _ _ (by decide) (by decide)

/-- Claim C6: for the valid mode strings, `photometry` builds a circular sky
aperture of the requested radius, obtains the summed flux from the external
photometry routine, and returns `mag = -2.5 * log10(flux) + zeropoint`
together with the aperture; a non-positive flux yields an undefined (NaN)
magnitude and no guard prevents it — the call still returns normally. -/
theorem photometry_mag_formula (p2w : WCSModel → ℚ × ℚ → SkyPos)
    (apsum : NDArray → SkyAperture → WCSModel → ℝ) (img : AstroImage)
    (coord : ℚ × ℚ) (r : ℚ) (zp : ℝ) (mode : String)
    (hmode : mode = "pixel" ∨ mode = "sky") :
    ∃ ap : SkyAperture, ap.r = r ∧
      photometry p2w apsum img coord r mode zp =
        .ok (npMag (apsum img.hdu ap img.wcs) zp, ap) ∧
      (0 < apsum img.hdu ap img.wcs →
        npMag (apsum img.hdu ap img.wcs) zp =
          some (-2.5 * Real.logb 10 (apsum img.hdu ap img.wcs) + zp)) ∧
      (apsum img.hdu ap img.wcs ≤ 0 →
        npMag (apsum img.hdu ap img.wcs) zp = none) := by
  have hmagpos : ∀ f : ℝ, 0 < f → npMag f zp = some (-2.5 * Real.logb 10 f + zp) := by
    intro f hf
    simp [npMag, npLog10, hf]
  have hmagnp : ∀ f : ℝ, f ≤ 0 → npMag f zp = none := by
    intro f hf
    simp [npMag, npLog10, not_lt.2 hf]
  rcases hmode with h | h <;> subst h
  · exact ⟨⟨p2w img.wcs coord, r⟩, rfl, by simp [photometry],
      fun hf => hmagpos _ hf, fun hf => hmagnp _ hf⟩
  · exact ⟨⟨⟨coord.1, coord.2, "fk5"⟩, r⟩, rfl, by simp [photometry],
      fun hf => hmagpos _ hf, fun hf => hmagnp _ hf⟩

/-- Witness for C6 at concrete inputs: mode `"sky"`, unit flux oracle. -/
theorem photometry_mag_formula_witness :
    ∃ ap : SkyAperture, ap.r = 1 ∧
      photometry (fun _ c => ⟨c.1, c.2, "icrs"⟩) (fun _ _ _ => 1) imgW (3, 4) 1
        "sky" 0 = .ok (npMag 1 0, ap) ∧
      (0 < (1 : ℝ) → npMag 1 0 = some (-2.5 * Real.logb 10 1 + 0)) ∧
      ((1 : ℝ) ≤ 0 → npMag 1 0 = none) :=
  photometry_mag_formula (fun _ c => ⟨c.1, c.2, "icrs"⟩) (fun _ _ _ => 1) imgW
    (3, 4) 1 0 "sky" (Or.inr rfl)

/-! Lemmas about the reduction loop. -/

/-- With equal fuel, the full loop succeeds on a shape-consistent array and
its transform component is the shape-level fixpoint. -/
theorem dropLoopFuel_ok (n : Nat) :
    ∀ (hdu : NDArray) (w : WCSModel) (hdr : Header),
      matchesShape hdu w.shape = true →
      ∃ hdu1 hdr1,
        dropLoopFuel n hdu w hdr = .ok (hdu1, dropAxesFuel n w, hdr1) := by
  induction n with
  | zero => intro hdu w hdr hm; exact ⟨hdu, hdr, rfl⟩
  | succ n ih =>
    intro hdu w hdr hm
    by_cases h : w.naxis ≠ 2 ∧ w.shape.headD 0 = 1
    · obtain ⟨h1, h2⟩ := h
      cases hs : w.shape with
      | nil => rw [hs] at h2; simp at h2
      | cons a rest =>
        rw [hs] at h2
        simp at h2
        subst h2
        rw [hs] at hm
        cases hdu with
        | val p => simp [matchesShape] at hm
        | arr l =>
          simp only [matchesShape, Bool.and_eq_true, beq_iff_eq] at hm
          obtain ⟨hlen, hrest⟩ := hm
          cases l with
          | nil => simp at hlen
          | cons x xs =>
            cases xs with
            | cons y ys => simp at hlen
            | nil =>
              have hx : matchesShape x rest = true := by
                simpa [matchesShapeL] using hrest
              have hx' : matchesShape x w.dropTop.shape = true := by
                simpa [WCSModel.dropTop, hs] using hx
              obtain ⟨hdu1, hdr1, hrun⟩ :=
                ih x w.dropTop (hdr.updateWCS w.dropTop) hx'
              refine ⟨hdu1, hdr1, ?_⟩
              rw [dropLoopFuel, if_pos ⟨h1, by rw [hs]; rfl⟩,
                dropAxesFuel, if_pos ⟨h1, by rw [hs]; rfl⟩]
              exact hrun
    · exact ⟨hdu, hdr, by
        rw [dropLoopFuel, if_neg h, dropAxesFuel, if_neg h]⟩

/-- The reduction loop succeeds on a shape-consistent array and its transform
component is the shape-level fixpoint `dropAxes`. -/
theorem dropLoopFull_ok (hdu : NDArray) (w : WCSModel) (hdr : Header)
    (hm : matchesShape hdu w.shape = true) :
    ∃ hdu1 hdr1, dropLoopFull hdu w hdr = .ok (hdu1, dropAxes w, hdr1) :=
  dropLoopFuel_ok w.shape.length hdu w hdr hm

/-- With enough fuel the loop reaches its exit condition: the reduced
transform reports exactly two axes, or its leading extent is not 1. -/
theorem dropAxesFuel_fix (n : Nat) :
    ∀ w : WCSModel, w.shape.length ≤ n →
      (dropAxesFuel n w).naxis = 2 ∨ (dropAxesFuel n w).shape.headD 0 ≠ 1 := by
  induction n with
  | zero =>
    intro w hw
    have hnil : w.shape = [] := List.eq_nil_of_length_eq_zero (Nat.le_zero.mp hw)
    right
    simp [dropAxesFuel, hnil]
  | succ n ih =>
    intro w hw
    by_cases h : w.naxis ≠ 2 ∧ w.shape.headD 0 = 1
    · have hlen : w.dropTop.shape.length ≤ n := by
        cases hs : w.shape with
        | nil => rw [hs] at h; simp at h
        | cons a rest =>
          rw [hs] at hw
          simp only [WCSModel.dropTop, hs, List.tail_cons]
          simpa using Nat.le_of_succ_le_succ hw
      rw [dropAxesFuel, if_pos h]
      exact ih w.dropTop hlen
    · rw [dropAxesFuel, if_neg h]
      push_neg at h
      by_cases h2 : w.naxis = 2
      · exact Or.inl h2
      · exact Or.inr (h h2)

/-- The loop's exit condition, at the fixpoint. -/
theorem dropAxes_fix (w : WCSModel) :
    (dropAxes w).naxis = 2 ∨ (dropAxes w).shape.headD 0 ≠ 1 :=
  dropAxesFuel_fix w.shape.length w le_rfl

/-- One full pass of the loop on a `[1, H, W]`-shaped input: the single
leading axis is dropped and the header refreshed from the reduced
transform, after which the loop stops. -/
theorem dropLoop_singleton (a : NDArray) (w : WCSModel) (hdr : Header)
    (hgt wd : Nat) (hsh : w.shape = [1, hgt, wd]) :
    dropLoopFull (.arr [a]) w hdr =
      .ok (a, w.dropTop, hdr.updateWCS w.dropTop) := by
  have hn3 : w.naxis = 3 := by simp [WCSModel.naxis, hsh]
  unfold dropLoopFull
  rw [hsh]
  show dropLoopFuel 3 (.arr [a]) w hdr = _
  rw [dropLoopFuel, if_pos ⟨by omega, by simp [hsh]⟩]
  show dropLoopFuel 2 a w.dropTop (hdr.updateWCS w.dropTop) = _
  rw [dropLoopFuel, if_neg]
  intro hcon
  exact hcon.1 (by simp [WCSModel.dropTop, WCSModel.naxis, hsh])

/-- Reading the end of the extended header store. -/
theorem heapGet_append (heap : Heap) (hdr : Header) :
    heapGet (heap ++ [hdr]) heap.length = hdr := by
  simp [heapGet, List.getD, List.getElem?_concat_length]

/-- Claim C1: whenever the transform still reports more than two axes after
the singleton-axis reduction loop, `AstroImage.__init__` with `mode='file'`
nevertheless completes without raising: the post-loop branch only constructs
an `Exception` and never raises it, so the handle is returned with its
inconsistent transform and only the caller can detect it by inspecting the
axis count. -/
theorem initFile_silent_on_excess_axes (fs : FS) (heap : Heap) (url : String)
    (ext : Nat) (file : FitsFile) (data : NDArray) (hdr0 : Header)
    (hlk : lookupFS fs url = some file)
    (hent : file[ext]? = some (data, hdr0))
    (hm : matchesShape data hdr0.wcsPart.shape = true)
    (h2 : 2 < (dropAxes hdr0.wcsPart).naxis) :
    ∃ img heap1, initFile fs heap url ext = .ok (img, heap1) ∧
      img.wcs = dropAxes hdr0.wcsPart ∧ 2 < img.wcs.naxis := by
  obtain ⟨hdu1, hdr1, hrun⟩ := dropLoopFull_ok data hdr0.wcsPart hdr0 hm
  simp only [initFile, hlk, hent, hrun]
  exact ⟨_, _, rfl, rfl, h2⟩

/-- A three-axis WCS fixture whose leading extent is 2, so the reduction loop
cannot drop it. -/
def wcs3W : WCSModel :=
  { shape := [2, 1, 1], ctype := ["RA---TAN", "DEC--TAN", "FREQ"],
    crpix := [0, 0, 0], pixelScales := [1/3600, 1/3600, 1] }

/-- Header fixture carrying `wcs3W`. -/
def hdr3W : Header := { wcsPart := wcs3W, rest := [] }

/-- A `[2, 1, 1]`-shaped data cube. -/
def cube3W : NDArray :=
  .arr [.arr [.arr [.val (some 1)]], .arr [.arr [.val (some 2)]]]

/-- A filesystem holding the three-axis cube. -/
def fs3W : FS := [("cube.fits", [(cube3W, hdr3W)])]

/-- Witness for C1: constructing from the three-axis cube returns normally
and leaves a transform with three axes. -/
theorem initFile_silent_on_excess_axes_witness :
    ∃ img heap1, initFile fs3W [] "cube.fits" 0 = .ok (img, heap1) ∧
      img.wcs = dropAxes hdr3W.wcsPart ∧ 2 < img.wcs.naxis :=
  initFile_silent_on_excess_axes fs3W [] "cube.fits" 0 [(cube3W, hdr3W)]
    cube3W hdr3W rfl rfl (by decide) (by decide)

/-- Claim C5: constructing from a FITS input of shape `[1, H, W]` drops the
highest-index transform axis (the leading singleton array axis), updates the
header from the reduced transform, and stops with a two-axis transform of
shape `(H, W)` wrapping `hdu[0]`; and in general the loop stops exactly when
the transform reports two axes or the leading extent is no longer 1. -/
theorem initFile_drops_leading_singleton (fs : FS) (heap : Heap) (url : String)
    (ext : Nat) (file : FitsFile) (data : NDArray) (hdr0 : Header)
    (hgt wd : Nat)
    (hlk : lookupFS fs url = some file)
    (hent : file[ext]? = some (data, hdr0))
    (hsh : hdr0.wcsPart.shape = [1, hgt, wd])
    (hm : matchesShape data [1, hgt, wd] = true) :
    ∃ img heap1, initFile fs heap url ext = .ok (img, heap1) ∧
      img.wcs = hdr0.wcsPart.dropTop ∧
      img.wcs.shape = [hgt, wd] ∧ img.wcs.naxis = 2 ∧
      data.index0 = .ok img.hdu ∧ matchesShape img.hdu [hgt, wd] = true ∧
      heapGet heap1 img.hdrRef = hdr0.updateWCS img.wcs ∧
      (∀ w : WCSModel,
        (dropAxes w).naxis = 2 ∨ (dropAxes w).shape.headD 0 ≠ 1) := by
  cases data with
  | val p => simp [matchesShape] at hm
  | arr l =>
    simp only [matchesShape, Bool.and_eq_true, beq_iff_eq] at hm
    obtain ⟨hlen, hrest⟩ := hm
    cases l with
    | nil => simp at hlen
    | cons a xs =>
      cases xs with
      | cons y ys => simp at hlen
      | nil =>
        have hx : matchesShape a [hgt, wd] = true := by
          simpa [matchesShapeL] using hrest
        have hrun := dropLoop_singleton a hdr0.wcsPart hdr0 hgt wd hsh
        simp only [initFile, hlk, hent, hrun]
        refine ⟨_, _, rfl, rfl, ?_, ?_, rfl, hx, heapGet_append heap _,
          dropAxes_fix⟩
        · simp [WCSModel.dropTop, hsh]
        · simp [WCSModel.naxis, WCSModel.dropTop, hsh]

/-- A `[1, 2, 2]`-shaped WCS fixture. -/
def wcs122 : WCSModel :=
  { shape := [1, 2, 2], ctype := ["RA---TAN", "DEC--TAN", "STOKES"],
    crpix := [1, 1, 0], pixelScales := [1/3600, 1/3600, 1] }

/-- Header fixture carrying `wcs122`. -/
def hdr122 : Header := { wcsPart := wcs122, rest := [("BUNIT", 0)] }

/-- A `[1, 2, 2]`-shaped data cube. -/
def arr122 : NDArray :=
  .arr [.arr [.arr [.val (some 1), .val (some 2)],
              .arr [.val (some 3), .val (some 4)]]]

/-- A filesystem holding the singleton-axis cube. -/
def fs122 : FS := [("s.fits", [(arr122, hdr122)])]

/-- Witness for C5 at the concrete `[1, 2, 2]` fixture. -/
theorem initFile_drops_leading_singleton_witness :
    ∃ img heap1, initFile fs122 [] "s.fits" 0 = .ok (img, heap1) ∧
      img.wcs = hdr122.wcsPart.dropTop ∧
      img.wcs.shape = [2, 2] ∧ img.wcs.naxis = 2 ∧
      arr122.index0 = .ok img.hdu ∧ matchesShape img.hdu [2, 2] = true ∧
      heapGet heap1 img.hdrRef = hdr122.updateWCS img.wcs ∧
      (∀ w : WCSModel,
        (dropAxes w).naxis = 2 ∨ (dropAxes w).shape.headD 0 ≠ 1) :=
  initFile_drops_leading_singleton fs122 [] "s.fits" 0 [(arr122, hdr122)]
    arr122 hdr122 2 2 rfl rfl rfl (by decide)

/-- Claim C2: a successful `cutout` or `cutout_pixel` returns a child handle
holding the very same header object as the parent (the same reference into the
header store), and that shared header object has been mutated in place with
the new transform's serialization — the parent's header is shared and
changed, not copied. -/
theorem cutout_shares_parent_header (heap : Heap) (img : AstroImage)
    (w2p : WCSModel → ℚ × ℚ → ℚ × ℚ) (coord box : ℚ × ℚ)
    (child : AstroImage) (heap1 : Heap)
    (h : cutout heap img w2p coord box = .ok (child, heap1) ∨
         cutoutPixel heap img w2p coord box = .ok (child, heap1)) :
    child.hdrRef = img.hdrRef ∧
    heap1 = heapSet heap img.hdrRef
      ((heapGet heap img.hdrRef).updateWCS child.wcs) := by
  rcases h with h | h
  · simp only [cutout] at h
    cases hcut : cutout2D img.hdu (w2p img.wcs coord)
        (elemDiv box img.pixel_scale) img.wcs .part with
    | error e => rw [hcut] at h; simp at h
    | ok res =>
      rw [hcut] at h
      simp only [Except.ok.injEq, Prod.mk.injEq] at h
      obtain ⟨hc, hh⟩ := h
      subst hc
      subst hh
      exact ⟨rfl, rfl⟩
  · simp only [cutoutPixel] at h
    cases hcut : cutout2D img.hdu (w2p img.wcs coord) box img.wcs .part with
    | error e => rw [hcut] at h; simp at h
    | ok res =>
      rw [hcut] at h
      simp only [Except.ok.injEq, Prod.mk.injEq] at h
      obtain ⟨hc, hh⟩ := h
      subst hc
      subst hh
      exact ⟨rfl, rfl⟩

/-- Witness for C2: a concrete 1x1 cutout; the child carries header
reference 0, the parent's, and the store holds the updated header there. -/
theorem cutout_shares_parent_header_witness :
    (initData arrW 0 wcsW [1, 1]).hdrRef = imgW.hdrRef ∧
    heapW = heapSet heapW imgW.hdrRef
      ((heapGet heapW imgW.hdrRef).updateWCS (initData arrW 0 wcsW [1, 1]).wcs) :=
  cutout_shares_parent_header heapW imgW (fun _ c => c) (0, 0) (1, 1)
    (initData arrW 0 wcsW [1, 1]) heapW (Or.inl (by with_unfolding_all rfl))

/-- Claim C4: `cutout` converts its sky coordinate to pixel space with the
stored world-to-pixel transform, converts the angular box to pixels by
elementwise division by the stored per-axis pixel scale, and extracts the
rectangular sub-array centred on that pixel position; whenever the box
overlaps the image at all the call succeeds — out-of-bounds pixels are
NaN-filled under `mode='partial'` — whereas the library's strict mode would
reject the same partially-overlapping box. -/
theorem cutout_geometry (heap : Heap) (img : AstroImage)
    (w2p : WCSModel → ℚ × ℚ → ℚ × ℚ) (coord box : ℚ × ℚ)
    (hov : overlapNonempty img.hdu (w2p img.wcs coord)
      (elemDiv box img.pixel_scale) = true) :
    ∃ child heap1, cutout heap img w2p coord box = .ok (child, heap1) ∧
      (let xy := w2p img.wcs coord
       let bp := elemDiv box img.pixel_scale
       let ny := npRound bp.1
       let nx := npRound bp.2
       let b := cutBounds xy ny nx
       child.hdu = cropAt img.hdu b.1.1 b.2.1 ny nx ∧
       child.wcs = adjustWCS img.wcs b.1.1 b.2.1 ny nx) ∧
      (fullyInside img.hdu (w2p img.wcs coord) (elemDiv box img.pixel_scale)
          = false →
        cutout2D img.hdu (w2p img.wcs coord) (elemDiv box img.pixel_scale)
          img.wcs .strict = .error .partOverlap) := by
  have hstrict : fullyInside img.hdu (w2p img.wcs coord)
      (elemDiv box img.pixel_scale) = false →
      cutout2D img.hdu (w2p img.wcs coord) (elemDiv box img.pixel_scale)
        img.wcs .strict = .error .partOverlap := by
    intro hfi
    simp [cutout2D, hov, hfi]
  have hmain : ∃ child heap1,
      cutout heap img w2p coord box = .ok (child, heap1) ∧
      (let xy := w2p img.wcs coord
       let bp := elemDiv box img.pixel_scale
       let ny := npRound bp.1
       let nx := npRound bp.2
       let b := cutBounds xy ny nx
       child.hdu = cropAt img.hdu b.1.1 b.2.1 ny nx ∧
       child.wcs = adjustWCS img.wcs b.1.1 b.2.1 ny nx) := by
    simp only [cutout, cutout2D, hov, if_true]
    rw [if_neg (show ¬(CutMode.part = CutMode.strict ∧
      fullyInside img.hdu (w2p img.wcs coord) (elemDiv box img.pixel_scale)
        = false) by simp)]
    exact ⟨_, _, rfl, ⟨rfl, rfl⟩⟩
  obtain ⟨c, h1, hc1, hc2⟩ := hmain
  exact ⟨c, h1, hc1, hc2, hstrict⟩

/-- Witness for C4: a 3x3 box on the 1x1 image overlaps only partially; the
partial-mode cutout succeeds and strict mode rejects it. -/
theorem cutout_geometry_witness :
    ∃ child heap1, cutout heapW imgW (fun _ c => c) (0, 0) (3, 3) =
        .ok (child, heap1) ∧
      (let xy := (fun (_ : WCSModel) (c : ℚ × ℚ) => c) imgW.wcs ((0, 0) : ℚ × ℚ)
       let bp := elemDiv (3, 3) imgW.pixel_scale
       let ny := npRound bp.1
       let nx := npRound bp.2
       let b := cutBounds xy ny nx
       child.hdu = cropAt imgW.hdu b.1.1 b.2.1 ny nx ∧
       child.wcs = adjustWCS imgW.wcs b.1.1 b.2.1 ny nx) ∧
      (fullyInside imgW.hdu
          ((fun (_ : WCSModel) (c : ℚ × ℚ) => c) imgW.wcs ((0, 0) : ℚ × ℚ))
          (elemDiv (3, 3) imgW.pixel_scale) = false →
        cutout2D imgW.hdu
          ((fun (_ : WCSModel) (c : ℚ × ℚ) => c) imgW.wcs ((0, 0) : ℚ × ℚ))
          (elemDiv (3, 3) imgW.pixel_scale) imgW.wcs .strict =
            .error .partOverlap) :=
  cutout_geometry heapW imgW (fun _ c => c) (0, 0) (3, 3)
    (by with_unfolding_all rfl)

/-- Writing at a path stores the file there, replacing any previous file. -/
theorem lookupFS_setFS (fs : FS) (url : String) (f : FitsFile) :
    lookupFS (setFS fs url f) url = some f := by
  induction fs with
  | nil => simp [setFS, lookupFS]
  | cons e rest ih =>
    obtain ⟨u, g⟩ := e
    by_cases hu : u == url
    · simp [setFS, hu, lookupFS]
    · simp only [setFS, hu, Bool.false_eq_true, if_false, lookupFS]
      exact ih

/-- A two-axis transform makes the reduction loop a no-op. -/
theorem dropLoopFull_noop (hdu : NDArray) (w : WCSModel) (hdr : Header)
    (h2 : w.naxis = 2) : dropLoopFull hdu w hdr = .ok (hdu, w, hdr) := by
  unfold dropLoopFull
  cases hn : w.shape.length with
  | zero => rfl
  | succ n => rw [dropLoopFuel, if_neg (fun hc => hc.1 h2)]

/-- Claim C8: `save` writes the handle's array and header as a
single-extension FITS file at the target path, overwriting whatever was
there, and re-constructing a handle from that file restores an equal array
(bit-exact: the model stores the array unchanged) and a transform with the
same axis count and pixel scale.  The hypotheses are the class invariants a
file-constructed two-axis handle satisfies: its header object serializes its
transform and its pixel-scale attribute is derived from the transform. -/
theorem save_roundtrip (fs : FS) (heap : Heap) (img : AstroImage)
    (url : String)
    (hw : (heapGet heap img.hdrRef).wcsPart = img.wcs)
    (h2 : img.wcs.naxis = 2)
    (hps : img.pixel_scale = img.wcs.pixelScales.map fun s => s * 3600) :
    lookupFS (save fs heap img url) url =
      some [(img.hdu, heapGet heap img.hdrRef)] ∧
    ∃ img1 heap1, initFile (save fs heap img url) heap url 0 =
        .ok (img1, heap1) ∧
      img1.hdu = img.hdu ∧ img1.wcs = img.wcs ∧
      img1.wcs.naxis = img.wcs.naxis ∧
      img1.wcs.pixelScales = img.wcs.pixelScales ∧
      img1.pixel_scale = img.pixel_scale := by
  have hlk : lookupFS (save fs heap img url) url =
      some [(img.hdu, heapGet heap img.hdrRef)] := lookupFS_setFS fs url _
  refine ⟨hlk, ?_⟩
  have hrun := dropLoopFull_noop img.hdu (heapGet heap img.hdrRef).wcsPart
    (heapGet heap img.hdrRef) (by rw [hw]; exact h2)
  simp only [initFile, hlk, List.getElem?_cons_zero, hrun]
  refine ⟨_, _, rfl, rfl, hw, by rw [hw], by rw [hw], ?_⟩
  rw [hw, hps]

/-- Witness for C8 on the 1x1 fixture handle. -/
theorem save_roundtrip_witness :
    lookupFS (save [] heapW imgW "out.fits") "out.fits" =
      some [(imgW.hdu, heapGet heapW imgW.hdrRef)] ∧
    ∃ img1 heap1, initFile (save [] heapW imgW "out.fits") heapW "out.fits" 0 =
        .ok (img1, heap1) ∧
      img1.hdu = imgW.hdu ∧ img1.wcs = imgW.wcs ∧
      img1.wcs.naxis = imgW.wcs.naxis ∧
      img1.wcs.pixelScales = imgW.wcs.pixelScales ∧
      img1.pixel_scale = imgW.pixel_scale :=
  save_roundtrip [] heapW imgW "out.fits" rfl rfl (by with_unfolding_all rfl)

/-! Lemmas for `mask_blank`. -/

/-- NaN compares `==`-unequal to every value. -/
theorem pixEq_nan (m : Pixel) : pixEq Pixel.nanP m = false := by
  cases m <;> rfl

mutual

/-- Composition of elementwise maps. -/
theorem mapPx_comp (f g : Pixel → Pixel) :
    (a : NDArray) → NDArray.mapPx g (NDArray.mapPx f a) =
      NDArray.mapPx (fun p => g (f p)) a
  | .val p => rfl
  | .arr l => by
      rw [NDArray.mapPx, NDArray.mapPx, NDArray.mapPx, mapPxL_comp f g l]

/-- Composition of elementwise maps on lists of arrays. -/
theorem mapPxL_comp (f g : Pixel → Pixel) :
    (l : List NDArray) → NDArray.mapPxL g (NDArray.mapPxL f l) =
      NDArray.mapPxL (fun p => g (f p)) l
  | [] => rfl
  | a :: as => by
      rw [NDArray.mapPxL, NDArray.mapPxL, NDArray.mapPxL, mapPx_comp f g a,
        mapPxL_comp f g as]

end

mutual

/-- The identity elementwise map. -/
theorem mapPx_id : (a : NDArray) → NDArray.mapPx (fun p => p) a = a
  | .val p => rfl
  | .arr l => by rw [NDArray.mapPx, mapPxL_id l]

/-- The identity elementwise map on lists of arrays. -/
theorem mapPxL_id : (l : List NDArray) → NDArray.mapPxL (fun p => p) l = l
  | [] => rfl
  | a :: as => by rw [NDArray.mapPxL, mapPx_id a, mapPxL_id as]

end

/-- The sequential per-value masking passes of `mask_blank` amount to one
simultaneous pass: a pixel is blanked exactly when it `==`-matches some
flagged value (a pixel blanked by an earlier pass is NaN, which matches no
later value). -/
theorem foldl_maskOne (ms : List Pixel) (h : NDArray) :
    ms.foldl (fun acc m => NDArray.mapPx (maskOne m) acc) h =
      NDArray.mapPx (anyMask ms) h := by
  induction ms generalizing h with
  | nil =>
    have hid : anyMask [] = fun p => p := by
      funext p
      simp [anyMask]
    rw [List.foldl_nil, hid, mapPx_id]
  | cons m ms ih =>
    rw [List.foldl_cons, ih, mapPx_comp]
    have hfun : (fun p => anyMask ms (maskOne m p)) = anyMask (m :: ms) := by
      funext p
      by_cases hpm : pixEq p m
      · simp [maskOne, anyMask, hpm, pixEq_nan]
      · simp [maskOne, anyMask, hpm]
    rw [hfun]

/-- The population variance of the count distribution is nonnegative. -/
theorem varQ_nonneg (l : List Nat) : 0 ≤ varQ l := by
  unfold varQ
  apply div_nonneg
  · apply List.sum_nonneg
    intro x hx
    simp only [List.mem_map] at hx
    obtain ⟨c, _, rfl⟩ := hx
    positivity
  · positivity

/-- The decidable squared-comparison form of the `mask_blank` flagging test
agrees with the literal `count > mean + 5 * std + threshold` comparison over
the reals, where `std` is the square root of the population variance. -/
theorem exceedsCritical_iff (counts : List Nat) (t : ℚ) (c : Nat) :
    exceedsCritical counts t c = true ↔
      ((meanQ counts : ℝ) + 5 * Real.sqrt ((varQ counts : ℝ)) + (t : ℝ) <
        (c : ℝ)) := by
  have hv : (0 : ℝ) ≤ ((varQ counts : ℚ) : ℝ) := by
    exact_mod_cast varQ_nonneg counts
  rw [exceedsCritical]
  simp only [decide_eq_true_eq]
  have h25 : Real.sqrt (25 * ((varQ counts : ℚ) : ℝ)) =
      5 * Real.sqrt ((varQ counts : ℚ) : ℝ) := by
    rw [show (25 : ℝ) * ((varQ counts : ℚ) : ℝ) =
        5 ^ 2 * ((varQ counts : ℚ) : ℝ) by norm_num,
      Real.sqrt_mul (by positivity), Real.sqrt_sq (by norm_num)]
  constructor
  · rintro ⟨h1, h2⟩
    have h1R : (0 : ℝ) < (c : ℝ) - (meanQ counts : ℝ) - (t : ℝ) := by
      exact_mod_cast h1
    have h2R : 25 * ((varQ counts : ℚ) : ℝ) <
        ((c : ℝ) - (meanQ counts : ℝ) - (t : ℝ)) ^ 2 := by
      exact_mod_cast h2
    have hlt := (Real.sqrt_lt' h1R).mpr h2R
    rw [h25] at hlt
    have hs : (0 : ℝ) ≤ Real.sqrt ((varQ counts : ℚ) : ℝ) := Real.sqrt_nonneg _
    linarith
  · intro h
    have hs : (0 : ℝ) ≤ Real.sqrt ((varQ counts : ℚ) : ℝ) := Real.sqrt_nonneg _
    have h1R : (0 : ℝ) < (c : ℝ) - (meanQ counts : ℝ) - (t : ℝ) := by linarith
    have hlt : Real.sqrt (25 * ((varQ counts : ℚ) : ℝ)) <
        (c : ℝ) - (meanQ counts : ℝ) - (t : ℝ) := by
      rw [h25]
      linarith
    have h2R := (Real.sqrt_lt' h1R).mp hlt
    refine ⟨by exact_mod_cast h1R, ?_⟩
    exact_mod_cast h2R

/-- Claim C3: `mask_blank` counts the distinct pixel values, flags exactly
those values whose count strictly exceeds `mean + 5 * std + threshold` over
the count distribution, replaces every pixel `==`-equal to a flagged value
with NaN while leaving all other pixels (and every other field of the
handle) unchanged, and returns the same handle; when nothing is flagged the
array is not modified at all. -/
theorem maskBlank_spec (img : AstroImage) (t : ℚ) :
    (let px := img.hdu.flat
     let values := uniqueVals px
     let counts := values.map (countPx px)
     let modeValues := values.filter fun v =>
       exceedsCritical counts t (countPx px v)
     maskBlank img t = { img with hdu := img.hdu.mapPx (anyMask modeValues) } ∧
     (∀ v : Pixel, v ∈ modeValues ↔ v ∈ values ∧
        ((meanQ counts : ℝ) + 5 * Real.sqrt ((varQ counts : ℝ)) + (t : ℝ) <
          (countPx px v : ℝ))) ∧
     (modeValues = [] → maskBlank img t = img)) := by
  refine ⟨?_, ?_, ?_⟩
  · simp only [maskBlank]
    rw [foldl_maskOne]
  · intro v
    rw [List.mem_filter, exceedsCritical_iff]
  · intro hempty
    simp only [maskBlank]
    rw [hempty, List.foldl_nil]

/-- Witness for C3: the `mask_blank` characterisation at the 1x1 fixture
handle with the default threshold 10000. -/
theorem maskBlank_spec_witness :
    (let px := imgW.hdu.flat
     let values := uniqueVals px
     let counts := values.map (countPx px)
     let modeValues := values.filter fun v =>
       exceedsCritical counts (10000 : ℚ) (countPx px v)
     maskBlank imgW 10000 =
       { imgW with hdu := imgW.hdu.mapPx (anyMask modeValues) } ∧
     (∀ v : Pixel, v ∈ modeValues ↔ v ∈ values ∧
        ((meanQ counts : ℝ) + 5 * Real.sqrt ((varQ counts : ℝ)) +
          ((10000 : ℚ) : ℝ) < (countPx px v : ℝ))) ∧
     (modeValues = [] → maskBlank imgW 10000 = imgW)) :=
  maskBlank_spec imgW 10000

end AstroLib
